import Mathlib

set_option autoImplicit false

/-! Shallow embedding of the `superqt` eliding label (`src/superqt/_label.py`)
and font-icon store (`src/superqt/fonticon/_qfont_icon.py`).  Qt services
(font metrics, text layout, the application font database) and the plugin
entry-point lookup are modelled as explicit parameters; the class-level
registry state of `QFontIconStore` is threaded explicitly through every
operation.  Errors raised by the Python code are modelled by an `Except`
result whose error constructors carry the data interpolated into the
exception messages. -/

/-- Association-list lookup, modelling a read of a Python `dict`
(`d[k]` / `d.get(k)` / `k in d`).  Python dict keys are unique, so an
insertion-ordered association list with first-match lookup is a faithful
model. -/
def alookup {α β : Type} [DecidableEq α] (k : α) : List (α × β) → Option β
  | [] => none
  | (k', v) :: rest => if k' = k then some v else alookup k rest

/-- Association-list update, modelling Python `d[k] = v`: replaces the value
in place when the key is present, appends otherwise (preserving insertion
order, as CPython dicts do). -/
def insertAssoc {α β : Type} [DecidableEq α] : List (α × β) → α → β → List (α × β)
  | [], k, v => [(k, v)]
  | (k', v') :: rest, k, v =>
      if k' = k then (k, v) :: rest else (k', v') :: insertAssoc rest k v

/-- Split a character list at the first '.', as Python
`s.split(".", maxsplit=1)`: the part before the first dot, and — when a dot
occurs — the part after it. -/
def splitDot : List Char → List Char × Option (List Char)
  | [] => ([], none)
  | c :: rest =>
      if c = '.' then ([], some rest)
      else
        let r := splitDot rest
        (c :: r.1, r.2)

/-- Python `s.split(".", maxsplit=1)` on strings, returned as
(part before the first dot, optional part after it).  `none` in the second
component means the string contains no '.'. -/
def pysplit1 (s : String) : String × Option String :=
  let r := splitDot s.toList
  (String.mk r.1, r.2.map String.mk)

/-- Python `v.split(".", maxsplit=1)[-1]`: everything after the first '.'
when `v` contains one, otherwise `v` itself.  Used to strip a `key.`
embedded in a charmap value. -/
def stripAfterDot (v : String) : String :=
  match (pysplit1 v).2 with
  | some r => r
  | none => v

/-- Python list slicing `xs[:n]` with a possibly negative `n`. -/
def pySliceTo {α : Type} (xs : List α) (n : Int) : List α :=
  if 0 ≤ n then xs.take n.toNat else xs.take ((xs.length : Int) + n).toNat

/-- Python list slicing `xs[n:]` with a possibly negative `n`. -/
def pySliceFrom {α : Type} (xs : List α) (n : Int) : List α :=
  if 0 ≤ n then xs.drop n.toNat else xs.drop ((xs.length : Int) + n).toNat

/-! ## Eliding label (`src/superqt/_label.py`) -/

/-- `Qt.TextElideMode`. -/
inductive TextElideMode
  | ElideLeft
  | ElideRight
  | ElideMiddle
  | ElideNone
deriving DecidableEq

/-- Abstraction of the Qt text services used by `QElidingLabel`:
`QFontMetrics.elidedText(text, mode, width)`, `QFontMetrics.height()` and
`QElidingLabel.wrapText(text, width, font)` (a `QTextLayout` computation),
all for the label's current font. -/
structure QtTextEnv where
  elidedText : String → TextElideMode → Int → String
  fmHeight : Int
  wrapText : String → Int → List String

/-- State of a `QElidingLabel`: the elide mode (`self._elide_mode`), the
stored full text (`self._text`), the text held by the base `QLabel`
(i.e. what is displayed, set via `super().setText`), the word-wrap flag and
the widget geometry. -/
structure QElidingLabel where
  elide_mode : TextElideMode
  text : String
  superText : String
  wordWrap : Bool
  width : Int
  height : Int

/-- `QElidingLabel._elidedText(self, width=None)`.  `width or self.width()`
follows Python truthiness: an argument of `0` (or `None`) falls back to the
widget width.  `//` is Python floor division, hence `Int.fdiv`. -/
def QElidingLabel.elidedText (env : QtTextEnv) (l : QElidingLabel) (w : Option Int) : String :=
  let width := (match w with
    | some v => if v = 0 then l.width else v
    | none => l.width) - 2
  if !l.wordWrap then env.elidedText l.text l.elide_mode width
  else
    let nlines : Int := Int.fdiv l.height env.fmHeight - 1
    let text := env.wrapText l.text l.width
    let last_line := env.elidedText (String.join (pySliceFrom text nlines)) l.elide_mode width
    String.join (pySliceTo text nlines ++ [last_line])

/-- `QElidingLabel.setText`. -/
def QElidingLabel.setText (env : QtTextEnv) (l : QElidingLabel) (txt : String) : QElidingLabel :=
  let l' := { l with text := txt }
  { l' with superText := QElidingLabel.elidedText env l' none }

/-- `QElidingLabel.fullText`. -/
def QElidingLabel.fullText (l : QElidingLabel) : String :=
  l.text

/-- `QElidingLabel.elideMode`. -/
def QElidingLabel.elideMode (l : QElidingLabel) : TextElideMode :=
  l.elide_mode

/-- `QElidingLabel.setElideMode`. -/
def QElidingLabel.setElideMode (env : QtTextEnv) (l : QElidingLabel) (m : TextElideMode) :
    QElidingLabel :=
  let l' := { l with elide_mode := m }
  { l' with superText := QElidingLabel.elidedText env l' none }

/-- `QElidingLabel.setWordWrap`. -/
def QElidingLabel.setWordWrap (env : QtTextEnv) (l : QElidingLabel) (wrap : Bool) :
    QElidingLabel :=
  let l' := { l with wordWrap := wrap }
  { l' with superText := QElidingLabel.elidedText env l' none }

/-- `QElidingLabel.resizeEvent`.  Qt has already applied the new geometry to
the widget when the event handler runs; the handler re-elides using the
event's width. -/
def QElidingLabel.resizeEvent (env : QtTextEnv) (l : QElidingLabel) (newW newH : Int) :
    QElidingLabel :=
  let l' := { l with width := newW, height := newH }
  { l' with superText := QElidingLabel.elidedText env l' (some newW) }

/-! ## Font-icon data model (`src/superqt/fonticon/_qfont_icon.py`) -/

/-- `QIcon.State`. -/
inductive QIconState
  | Off
  | On
deriving DecidableEq

/-- `QIcon.Mode`. -/
inductive QIconMode
  | Normal
  | Active
  | Selected
  | Disabled
deriving DecidableEq

/-- The `ValidColor` union (a `QColor`, int, str, `Qt.GlobalColor`, or RGB(A)
tuple); external colour objects are identified by an opaque tag. -/
inductive ColorVal
  | qcolor (id : Nat)
  | intc (n : Int)
  | strc (s : String)
  | globalColor (n : Nat)
  | rgb (r g b : Int)
  | rgba (r g b a : Int)
deriving DecidableEq

/-- Opaque model of `superqt.fonticon._animations.Animation` objects (the
module is outside the verified sources; icons only store them). -/
structure Animation where
  id : Nat
deriving DecidableEq

/-- Opaque model of `QTransform` objects (icons only store them). -/
structure Transform where
  id : Nat
deriving DecidableEq

/-- `DEFAULT_SCALING_FACTOR = 0.875`.  Numeric option fields are modelled as
rationals; no claim depends on IEEE float rounding. -/
def DEFAULT_SCALING_FACTOR : Rat := 0.875

/-- `DEFAULT_OPACITY = 1`. -/
def DEFAULT_OPACITY : Rat := 1

/-- The `IconOptions` dataclass. -/
structure IconOptions where
  glyph_key : String
  scale_factor : Rat
  color : Option ColorVal
  opacity : Rat
  animation : Option Animation
  transform : Option Transform
deriving DecidableEq

/-- The `kwargs` dict handed to `IconOptions._from_kwargs`, restricted to the
dataclass fields it reads (`IconOptions.__dataclass_fields__`): each entry is
`none` exactly when the Python value is `None`. -/
structure IconOptionsKwargs where
  glyph_key : Option String
  scale_factor : Option Rat
  color : Option ColorVal
  opacity : Option Rat
  animation : Option Animation
  transform : Option Transform
deriving DecidableEq

/-- `IconOptions._defaults()`, i.e. `IconOptions("")`. -/
def IconOptions.defaultsRecord : IconOptions :=
  { glyph_key := ""
    scale_factor := DEFAULT_SCALING_FACTOR
    color := none
    opacity := DEFAULT_OPACITY
    animation := none
    transform := none }

/-- `IconOptions._from_kwargs(kwargs, defaults)`: for each dataclass field
take the kwargs value unless it is `None`, in which case take the defaults
record's value; `defaults or cls._defaults()` substitutes the all-default
record when no defaults are given (dataclass instances are always truthy). -/
def IconOptions.fromKwargs (kwargs : IconOptionsKwargs) (defaults : Option IconOptions) :
    IconOptions :=
  let d := defaults.getD IconOptions.defaultsRecord
  { glyph_key := kwargs.glyph_key.getD d.glyph_key
    scale_factor := kwargs.scale_factor.getD d.scale_factor
    color := match kwargs.color with
      | some c => some c
      | none => d.color
    opacity := kwargs.opacity.getD d.opacity
    animation := match kwargs.animation with
      | some a => some a
      | none => d.animation
    transform := match kwargs.transform with
      | some t => some t
      | none => d.transform }

/-- The module-level `_states` table: each key is the frozenset of state
words (kept here as a list compared up to set equality), each value the
`(QIcon.State, QIcon.Mode)` pair it denotes. -/
def statesTable : List (List String × (QIconState × QIconMode)) :=
  [ (["on"], (QIconState.On, QIconMode.Normal))
  , (["off"], (QIconState.Off, QIconMode.Normal))
  , (["normal"], (QIconState.Off, QIconMode.Normal))
  , (["active"], (QIconState.Off, QIconMode.Active))
  , (["selected"], (QIconState.Off, QIconMode.Selected))
  , (["disabled"], (QIconState.Off, QIconMode.Disabled))
  , (["on", "normal"], (QIconState.On, QIconMode.Normal))
  , (["on", "active"], (QIconState.On, QIconMode.Active))
  , (["on", "selected"], (QIconState.On, QIconMode.Selected))
  , (["on", "disabled"], (QIconState.On, QIconMode.Disabled))
  , (["off", "normal"], (QIconState.Off, QIconMode.Normal))
  , (["off", "active"], (QIconState.Off, QIconMode.Active))
  , (["off", "selected"], (QIconState.Off, QIconMode.Selected))
  , (["off", "disabled"], (QIconState.Off, QIconMode.Disabled))
  ]

/-- Equality of the underlying sets of two word lists (frozenset equality). -/
def setEqL (a b : List String) : Bool :=
  a.all (fun x => b.contains x) && b.all (fun x => a.contains x)

/-- Python `s.split("_")` for the single-character separator, structurally
on the character list. -/
def splitUnderscore : List Char → List (List Char)
  | [] => [[]]
  | c :: rest =>
      if c = '_' then [] :: splitUnderscore rest
      else
        match splitUnderscore rest with
        | [] => [[c]]
        | g :: gs => (c :: g) :: gs

/-- `kw.lower().split("_")` (`str.lower` lowercases character-wise). -/
def stateParts (kw : String) : List String :=
  (splitUnderscore (kw.toList.map Char.toLower)).map String.mk

/-- `_states[frozenset(parts)]` as a total lookup: `none` models the
`KeyError` branch. -/
def statesLookup (parts : List String) : Option (QIconState × QIconMode) :=
  (statesTable.find? (fun e => setEqL e.1 parts)).map (fun e => e.2)

/-! ## The store -/

/-- A charmap: glyph names to character strings (`Dict[str, str]`). -/
abbrev Charmap := List (String × String)

/-- Class-level state of `QFontIconStore`: `_LOADED_KEYS` (font key to
(family, style)) and `_CHARMAPS` ((family, style) to charmap).  `addFont`
always records a concrete style string (possibly empty), so styles are
plain strings. -/
structure QFontIconStore where
  loadedKeys : List (String × (String × String))
  charmaps : List ((String × String) × Charmap)
deriving DecidableEq

/-- The exceptions the embedded operations can raise, with the data that the
source interpolates into the message. -/
inductive Err
  | unrecognizedKey (key : String)
  | unpackError
  | noCharmap (family style : String)
  | noGlyph (family style key : String)
  | invalidStateKey (kw : String)
  | assertionFailure
deriving DecidableEq

/-- Which of the modelled exceptions are Python `ValueError`s
(`noCharmap` is a `KeyError`, `assertionFailure` an `AssertionError`;
`unpackError` is the `ValueError` raised by unpacking a 1-element split). -/
def Err.isValueError : Err → Bool
  | .unrecognizedKey _ => true
  | .unpackError => true
  | .noCharmap _ _ => false
  | .noGlyph _ _ _ => true
  | .invalidStateKey _ => true
  | .assertionFailure => false

/-- A font-plugin class as returned by `superqt.fonticon._plugins
.get_font_class` (entry-point machinery outside the verified sources):
`familyStyle` is the (family, style) the Qt font database reports for the
plugin's `__font_file__` (`none` models any load failure), `charmap` its
`__dict__` used as the charmap. -/
structure PluginFontClass where
  familyStyle : Option (String × String)
  charmap : Charmap

/-- The plugin registry: key to plugin font class, `none` when
`get_font_class` raises (no plugin provides the key). -/
def Plugins : Type := String → Option PluginFontClass

/-- `QFontIconStore.clear` (the Qt-side
`QFontDatabase.removeAllApplicationFonts()` is outside the registries). -/
def QFontIconStore.clear (_cls : QFontIconStore) : QFontIconStore :=
  { loadedKeys := [], charmaps := [] }

/-- `QFontIconStore.addFont(filepath, prefix, charmap)`.  The interaction
with the filesystem and the Qt font database is abstracted into
`loadResult`: `none` models the branches where the font file fails to load
or reports no family (the function warns and returns `None`), `some (family,
style)` the successful load with the family and last style Qt reports.  The
`assert prefix not in cls._LOADED_KEYS` is the modelled assertion; the
filepath-exists and QApplication asserts concern the external environment.
`if charmap:` is Python truthiness, so an empty charmap is not recorded. -/
def QFontIconStore.addFont (cls : QFontIconStore) (pfx : String)
    (loadResult : Option (String × String)) (charmap : Option Charmap) :
    Except Err (Option (String × String) × QFontIconStore) :=
  if (alookup pfx cls.loadedKeys).isSome then .error .assertionFailure
  else
    match loadResult with
    | none => .ok (none, cls)
    | some (family, style) =>
      let cls' : QFontIconStore :=
        { loadedKeys := insertAssoc cls.loadedKeys pfx (family, style)
          charmaps :=
            match charmap with
            | some m => if m ≠ [] then insertAssoc cls.charmaps (family, style) m else cls.charmaps
            | none => cls.charmaps }
      .ok (some (family, style), cls')

/-- `QFontIconStore._key2family(key)`: truncate at the first '.', return the
registered pair, else try to auto-load a plugin font via `addFont`; any
failure in that `try` block is wrapped into the "Unrecognized font key"
`ValueError`.  On success the result is (redundantly) re-recorded in
`_LOADED_KEYS`. -/
def QFontIconStore.key2family (pl : Plugins) (cls : QFontIconStore) (key : String) :
    Except Err ((String × String) × QFontIconStore) :=
  let key := (pysplit1 key).1
  match alookup key cls.loadedKeys with
  | some fs => .ok (fs, cls)
  | none =>
    match pl key with
    | none => .error (.unrecognizedKey key)
    | some pf =>
      match QFontIconStore.addFont cls key pf.familyStyle (some pf.charmap) with
      | .ok (some result, cls') =>
          .ok (result, { cls' with loadedKeys := insertAssoc cls'.loadedKeys key result })
      | _ => .error (.unrecognizedKey key)

/-- The Python keywords (`keyword.iskeyword`). -/
def pyKeywords : List String :=
  ["False", "None", "True", "and", "as", "assert", "async", "await", "break",
   "class", "continue", "def", "del", "elif", "else", "except", "finally",
   "for", "from", "global", "if", "import", "in", "is", "lambda", "nonlocal",
   "not", "or", "pass", "raise", "return", "try", "while", "with", "yield"]

/-- ASCII approximation of `str.isidentifier`. -/
def isPyIdent (s : String) : Bool :=
  match s.toList with
  | [] => false
  | c :: rest => (c.isAlpha || c = '_') && rest.all (fun d => d.isAlphanum || d = '_')

/-- Python `s.replace(old, new)` for a single-character needle, as the
character-wise map it amounts to. -/
def pyReplaceChar (s : String) (old new : Char) : String :=
  String.mk (s.toList.map (fun c => if c = old then new else c))

/-- `_ensure_identifier(name)`: prepend '_' to names starting with a digit,
append '_' to keywords, replace dashes and spaces with underscores; `none`
models the final `assert str.isidentifier(name)` failing
(an `AssertionError`).  `isdigit`/`isidentifier` are taken at their ASCII
meaning. -/
def ensure_identifier (name : String) : Option String :=
  if name = "" then some ""
  else
    let n1 := if (name.toList.headD '_').isDigit then "_" ++ name else name
    let n2 := if pyKeywords.contains n1 then n1 ++ "_" else n1
    let n3 := pyReplaceChar (pyReplaceChar n2 '-' '_') ' ' '_'
    if isPyIdent n3 then some n3 else none

/-- The guard `len(char) == 1 and ord(char) > 256` in `_ensure_char`. -/
def isDirectUnicode (char : String) : Bool :=
  match char.toList with
  | [c] => 256 < c.toNat
  | _ => false

/-- `QFontIconStore._ensure_char(char, family, style)`: single characters
above code point 256 pass through; otherwise the charmap registered for
(family, style) is consulted — a missing charmap is a `KeyError`, then a
direct lookup, then a lookup of the identifier-normalized name, each hit
stripped of an embedded `key.`, and a `ValueError` when both miss. -/
def QFontIconStore.ensure_char (cls : QFontIconStore) (char family style : String) :
    Except Err String :=
  if isDirectUnicode char then .ok char
  else
    match alookup (family, style) cls.charmaps with
    | none => .error (.noCharmap family style)
    | some cm =>
      match alookup char cm with
      | some v => .ok (stripAfterDot v)
      | none =>
        match ensure_identifier char with
        | none => .error .assertionFailure
        | some ident =>
          match alookup ident cm with
          | some v => .ok (stripAfterDot v)
          | none => .error (.noGlyph family style char)

/-- `QFontIconStore.key2glyph(glyph_key)`: `font_key, char =
glyph_key.split(".", maxsplit=1)` (a `ValueError` when there is no dot),
then `_key2family`, then `_ensure_char` against the possibly-updated
registries. -/
def QFontIconStore.key2glyph (pl : Plugins) (cls : QFontIconStore) (glyph_key : String) :
    Except Err ((String × String × String) × QFontIconStore) :=
  match pysplit1 glyph_key with
  | (_, none) => .error .unpackError
  | (font_key, some char) =>
    match QFontIconStore.key2family pl cls font_key with
    | .error e => .error e
    | .ok ((family, style), cls') =>
      match QFontIconStore.ensure_char cls' char family style with
      | .error e => .error e
      | .ok ch => .ok ((ch, family, style), cls')

/-- The runtime argument values of a `QFontIcon.addState` call reached via
`icon`'s `states` dict (after Python applies the declared defaults for
omitted keyword arguments).  `font_family`/`font_style` are accepted but are
not dataclass fields, so `_from_kwargs` ignores them. -/
structure AddStateKwargs where
  glyph_key : Option String
  font_family : Option String
  font_style : Option String
  scale_factor : Option Rat
  color : Option ColorVal
  opacity : Option Rat
  animation : Option Animation
  transform : Option Transform
deriving DecidableEq

/-- The dataclass-field projection of an `addState` call's `locals()`. -/
def AddStateKwargs.toKwargs (k : AddStateKwargs) : IconOptionsKwargs :=
  { glyph_key := k.glyph_key
    scale_factor := k.scale_factor
    color := k.color
    opacity := k.opacity
    animation := k.animation
    transform := k.transform }

/-- A `QFontIcon` (with its `_QFontIconEngine`): the default options and the
per-(state, mode) option table `_opts`. -/
structure QFontIcon where
  defaultOpts : IconOptions
  opts : List ((QIconState × QIconMode) × IconOptions)
deriving DecidableEq

/-- `QFontIcon.addState(state, mode, **kwargs)`: merge the kwargs against the
engine's default options and store the result at `_opts[state][mode]`. -/
def QFontIcon.addState (icn : QFontIcon) (state : QIconState) (mode : QIconMode)
    (k : AddStateKwargs) : QFontIcon :=
  { icn with
    opts := insertAssoc icn.opts (state, mode)
      (IconOptions.fromKwargs k.toKwargs (some icn.defaultOpts)) }

/-- The `for kw, options in states.items()` loop of `QFontIconStore.icon`:
look each key's lowercase underscore-split word set up in `_states`
(a miss raises the "not a valid state key" `ValueError`) and apply
`addState` for the mapped pair. -/
def applyStates : QFontIcon → List (String × AddStateKwargs) → Except Err QFontIcon
  | icn, [] => .ok icn
  | icn, (kw, o) :: rest =>
    match statesLookup (stateParts kw) with
    | none => .error (.invalidStateKey kw)
    | some (state, mode) => applyStates (QFontIcon.addState icn state mode o) rest

/-- `QFontIconStore.icon(glyph_key, *, scale_factor, color, opacity,
animation, transform, states)`: validate the glyph key first, build the
default options from the call's `locals()`, construct the `QFontIcon`, then
process the `states` dict. -/
def QFontIconStore.icon (pl : Plugins) (cls : QFontIconStore) (glyph_key : String)
    (scale_factor : Option Rat) (color : Option ColorVal) (opacity : Option Rat)
    (animation : Option Animation) (transform : Option Transform)
    (states : List (String × AddStateKwargs)) :
    Except Err (QFontIcon × QFontIconStore) :=
  match QFontIconStore.key2glyph pl cls glyph_key with
  | .error e => .error e
  | .ok (_, cls') =>
    let default_opts := IconOptions.fromKwargs
      { glyph_key := some glyph_key
        scale_factor := scale_factor
        color := color
        opacity := opacity
        animation := animation
        transform := transform } none
    match applyStates { defaultOpts := default_opts, opts := [] } states with
    | .error e => .error e
    | .ok icn => .ok (icn, cls')

/-- The `QFont` a store operation configures: family, optional style name
(set only for a non-empty style), optional pixel size (set only for a
truthy size). -/
structure QFontModel where
  family : String
  styleName : Option String
  pixelSize : Option Int
deriving DecidableEq

/-- `QFontIconStore.font(font_prefix, size)`. -/
def QFontIconStore.font (pl : Plugins) (cls : QFontIconStore) (fontPfx : String)
    (size : Option Int) : Except Err (QFontModel × QFontIconStore) :=
  match pysplit1 fontPfx with
  | (_, none) => .error .unpackError
  | (font_key, some _) =>
    match QFontIconStore.key2family pl cls font_key with
    | .error e => .error e
    | .ok ((family, style), cls') =>
      .ok ({ family := family
             styleName := if style ≠ "" then some style else none
             pixelSize := match size with
               | some z => if z ≠ 0 then some z else none
               | none => none }, cls')

/-- Python `int()` on a rational: truncation toward zero. -/
def pyInt (q : Rat) : Int :=
  if 0 ≤ q then q.floor else q.ceil

/-- The widget state `setTextIcon` touches: height (read), text and font
(written).  The `getattr(widget, "setText", ...)` guard concerns widgets
without `setText` and is outside this model. -/
structure WidgetModel where
  height : Int
  text : String
  font : Option QFontModel
deriving DecidableEq

/-- `QFontIconStore.setTextIcon(widget, glyph_key, size)`: resolve the glyph,
compute the pixel size (`size or DEFAULT_SCALING_FACTOR`, scaled by the
widget height when not above 1), set the widget's font via `self.font` and
its text to the glyph. -/
def QFontIconStore.setTextIcon (pl : Plugins) (cls : QFontIconStore) (w : WidgetModel)
    (glyph_key : String) (size : Option Rat) :
    Except Err (WidgetModel × QFontIconStore) :=
  match QFontIconStore.key2glyph pl cls glyph_key with
  | .error e => .error e
  | .ok ((glyph, _, _), cls1) =>
    let sz := match size with
      | none => DEFAULT_SCALING_FACTOR
      | some v => if v = 0 then DEFAULT_SCALING_FACTOR else v
    let sz := if 1 < sz then sz else (w.height : Rat) * sz
    match QFontIconStore.font pl cls1 glyph_key (some (pyInt sz)) with
    | .error e => .error e
    | .ok (f, cls2) => .ok ({ w with font := some f, text := glyph }, cls2)

/-- No plugin resolves to the given (family, style) pair; under this
assumption an operation that may auto-load plugin fonts cannot touch the
charmap registered for that pair. -/
def noPluginFor (pl : Plugins) (fs : String × String) : Prop :=
  ∀ q pf, pl q = some pf → pf.familyStyle ≠ some fs

/-- The empty plugin registry (no entry points installed). -/
def pl0 : Plugins := fun _ => none

/-- A concrete store: prefix "k" loaded as family "F", style "S", with a
two-entry charmap whose second value embeds the `k.` key. -/
def cs0 : QFontIconStore :=
  { loadedKeys := [("k", ("F", "S"))]
    charmaps := [(("F", "S"), [("abc", "z"), ("x", "k.y")])] }

/-- A concrete store with one loaded font and its charmap, for exercising a
second `addFont` that resolves to the same (family, style). -/
def csA : QFontIconStore :=
  { loadedKeys := [("a", ("F", "S"))]
    charmaps := [(("F", "S"), [("x", "y")])] }

/-- A concrete Qt text environment: the elision function keeps only the
first character, lines are 10 px high, and every text wraps into the two
lines "aa" and "bb". -/
def envC4 : QtTextEnv :=
  { elidedText := fun s _ _ => String.mk (s.toList.take 1)
    fmHeight := 10
    wrapText := fun _ _ => ["aa", "bb"] }

/-- A word-wrapping label shorter than one text line (height 5 < 10). -/
def lblC4 : QElidingLabel :=
  { elide_mode := TextElideMode.ElideRight
    text := "aabb"
    superText := ""
    wordWrap := true
    width := 100
    height := 5 }

/-- The same label with word wrap disabled and width 50. -/
def lblC4w : QElidingLabel :=
  { elide_mode := TextElideMode.ElideRight
    text := "aabb"
    superText := ""
    wordWrap := false
    width := 50
    height := 5 }

/-- An `addState` call with every keyword argument passed as `None`. -/
def o0 : AddStateKwargs :=
  { glyph_key := none
    font_family := none
    font_style := none
    scale_factor := none
    color := none
    opacity := none
    animation := none
    transform := none }

/-- A concrete icon with empty per-state options. -/
def icn0 : QFontIcon :=
  { defaultOpts := IconOptions.defaultsRecord, opts := [] }

/-! ## Helper lemmas -/


theorem alookup_insertAssoc_self {α β : Type} [DecidableEq α]
    (l : List (α × β)) (k : α) (v : β) :
    alookup k (insertAssoc l k v) = some v := by
  induction l with
  | nil => simp [insertAssoc, alookup]
  | cons hd t ih =>
    obtain ⟨a, b⟩ := hd
    by_cases ha : a = k
    · simp [insertAssoc, ha, alookup]
    · simp [insertAssoc, ha, alookup, ih]

theorem alookup_insertAssoc_ne {α β : Type} [DecidableEq α]
    (l : List (α × β)) (k k' : α) (v : β) (h : k' ≠ k) :
    alookup k' (insertAssoc l k v) = alookup k' l := by
  have h' : ¬ k = k' := fun hh => h hh.symm
  induction l with
  | nil => simp [insertAssoc, alookup, h']
  | cons hd t ih =>
    obtain ⟨a, b⟩ := hd
    by_cases ha : a = k
    · subst ha
      simp [insertAssoc, alookup, h']
    · simp [insertAssoc, ha, alookup, ih]

theorem splitDot_fst_not_mem (cs : List Char) : '.' ∉ (splitDot cs).1 := by
  induction cs with
  | nil => simp [splitDot]
  | cons c rest ih =>
    by_cases hc : c = '.'
    · simp [splitDot, hc]
    · simp only [splitDot, if_neg hc, List.mem_cons]
      push_neg
      exact ⟨fun hh => hc hh.symm, ih⟩

theorem splitDot_of_not_mem (cs : List Char) (h : '.' ∉ cs) : splitDot cs = (cs, none) := by
  induction cs with
  | nil => simp [splitDot]
  | cons c rest ih =>
    have hc : ¬ c = '.' := fun hh => h (hh ▸ List.mem_cons_self c rest)
    have hrest : '.' ∉ rest := fun hh => h (List.mem_cons_of_mem _ hh)
    simp [splitDot, hc, ih hrest]

theorem pysplit1_idem (s : String) :
    pysplit1 (pysplit1 s).1 = ((pysplit1 s).1, none) := by
  have h1 : (pysplit1 s).1 = String.mk (splitDot s.toList).1 := rfl
  have h2 : (String.mk (splitDot s.toList).1).toList = (splitDot s.toList).1 := rfl
  rw [h1]
  unfold pysplit1
  rw [h2, splitDot_of_not_mem _ (splitDot_fst_not_mem s.toList)]
  rfl

theorem join_append_one (xs : List String) (x : String) :
    String.join (xs ++ [x]) = String.join xs ++ x := by
  simp [String.join, List.foldl_append]

theorem applyStates_error_of_invalid (kw : String) (o : AddStateKwargs)
    (hkw : statesLookup (stateParts kw) = none) :
    ∀ (pre : List (String × AddStateKwargs)) (icn : QFontIcon)
      (post : List (String × AddStateKwargs)),
      (∀ p ∈ pre, (statesLookup (stateParts p.1)).isSome) →
      applyStates icn (pre ++ (kw, o) :: post) = .error (.invalidStateKey kw) := by
  intro pre
  induction pre with
  | nil =>
    intro icn post _
    simp [applyStates, hkw]
  | cons hd tl ih =>
    intro icn post hvalid
    obtain ⟨kw', o'⟩ := hd
    have h1 : (statesLookup (stateParts kw')).isSome := hvalid _ (List.mem_cons_self _ _)
    rcases hs : statesLookup (stateParts kw') with _ | ⟨st, md⟩
    · rw [hs] at h1
      simp at h1
    · simp only [List.cons_append, applyStates, hs]
      exact ih _ _ (fun p hp => hvalid p (List.mem_cons_of_mem _ hp))

theorem addFont_charmaps (cls : QFontIconStore) (pfx : String)
    (res : Option (String × String)) (cm : Option Charmap)
    (out : Option (String × String) × QFontIconStore) (fs : String × String)
    (h : QFontIconStore.addFont cls pfx res cm = .ok out)
    (hne : res ≠ some fs) :
    alookup fs out.2.charmaps = alookup fs cls.charmaps := by
  simp only [QFontIconStore.addFont] at h
  split at h
  · simp at h
  · split at h
    · simp only [Except.ok.injEq] at h
      rw [← h]
    · next family style =>
      simp only [Except.ok.injEq] at h
      rw [← h]
      dsimp only
      have hfs : fs ≠ (family, style) := by
        intro hh
        exact hne (by rw [hh])
      split
      · next m =>
        split
        · exact alookup_insertAssoc_ne _ _ _ _ hfs
        · rfl
      · rfl

theorem key2family_charmaps_preserved (pl : Plugins) (fs : String × String)
    (cls : QFontIconStore) (key : String)
    (out : (String × String) × QFontIconStore) (hpl : noPluginFor pl fs)
    (h : QFontIconStore.key2family pl cls key = .ok out) :
    alookup fs out.2.charmaps = alookup fs cls.charmaps := by
  simp only [QFontIconStore.key2family] at h
  split at h
  · simp only [Except.ok.injEq] at h
    rw [← h]
  · split at h
    · simp at h
    · next pf hp =>
      split at h
      · next result cls1 had =>
        simp only [Except.ok.injEq] at h
        rw [← h]
        exact addFont_charmaps _ _ _ _ _ fs had (hpl _ _ hp)
      · simp at h

theorem key2glyph_charmaps_preserved (pl : Plugins) (fs : String × String)
    (cls : QFontIconStore) (gk : String)
    (out : (String × String × String) × QFontIconStore) (hpl : noPluginFor pl fs)
    (h : QFontIconStore.key2glyph pl cls gk = .ok out) :
    alookup fs out.2.charmaps = alookup fs cls.charmaps := by
  simp only [QFontIconStore.key2glyph] at h
  split at h
  · simp at h
  · split at h
    · simp at h
    · split at h
      · simp at h
      · simp only [Except.ok.injEq] at h
        rw [← h]
        exact key2family_charmaps_preserved pl fs cls _ _ hpl (by assumption)

/-! ## Claim theorems -/

/-- C8: the font-icon store's registries are a single process-wide state
(modelled as the one `QFontIconStore` value every class-level operation
threads), and after `QFontIconStore.clear()` both the loaded-keys and the
charmap registries are empty — every lookup misses — regardless of how many
fonts were previously loaded. -/
theorem clear_empties_registries (cls : QFontIconStore) :
    (QFontIconStore.clear cls).loadedKeys = [] ∧
    (QFontIconStore.clear cls).charmaps = [] ∧
    (∀ k : String, alookup k (QFontIconStore.clear cls).loadedKeys = none) ∧
    (∀ fs : String × String, alookup fs (QFontIconStore.clear cls).charmaps = none) :=
  ⟨rfl, rfl, fun _ => rfl, fun _ => rfl⟩

/-- C9: eliding never touches the stored text: after `setText(s)`,
`fullText()` returns `s` exactly, and `setElideMode`, `setWordWrap` and
resize events leave the stored full text unchanged (they only recompute the
displayed text). -/
theorem eliding_preserves_stored_text (env : QtTextEnv) (l : QElidingLabel) (s : String)
    (m : TextElideMode) (b : Bool) (w h : Int) :
    QElidingLabel.fullText (QElidingLabel.setText env l s) = s ∧
    (QElidingLabel.setText env l s).text = s ∧
    (QElidingLabel.setElideMode env (QElidingLabel.setText env l s) m).text = s ∧
    (QElidingLabel.setWordWrap env (QElidingLabel.setText env l s) b).text = s ∧
    (QElidingLabel.resizeEvent env (QElidingLabel.setText env l s) w h).text = s ∧
    (∀ l' : QElidingLabel, (QElidingLabel.setElideMode env l' m).text = l'.text) ∧
    (∀ l' : QElidingLabel, (QElidingLabel.setWordWrap env l' b).text = l'.text) ∧
    (∀ l' : QElidingLabel, (QElidingLabel.resizeEvent env l' w h).text = l'.text) :=
  ⟨rfl, rfl, rfl, rfl, rfl, fun _ => rfl, fun _ => rfl, fun _ => rfl⟩

/-- C5: `IconOptions._from_kwargs` merges kwargs against the defaults record:
each dataclass field takes the kwargs value when it is not `None` and the
defaults record's value otherwise, and an absent defaults record means the
all-default `IconOptions` (`IconOptions("")`). -/
theorem from_kwargs_merges (kwargs : IconOptionsKwargs) (d : IconOptions) :
    (IconOptions.fromKwargs kwargs none =
      IconOptions.fromKwargs kwargs (some IconOptions.defaultsRecord)) ∧
    (∀ v, kwargs.glyph_key = some v →
      (IconOptions.fromKwargs kwargs (some d)).glyph_key = v) ∧
    (kwargs.glyph_key = none →
      (IconOptions.fromKwargs kwargs (some d)).glyph_key = d.glyph_key) ∧
    (∀ v, kwargs.scale_factor = some v →
      (IconOptions.fromKwargs kwargs (some d)).scale_factor = v) ∧
    (kwargs.scale_factor = none →
      (IconOptions.fromKwargs kwargs (some d)).scale_factor = d.scale_factor) ∧
    (∀ v, kwargs.color = some v →
      (IconOptions.fromKwargs kwargs (some d)).color = some v) ∧
    (kwargs.color = none →
      (IconOptions.fromKwargs kwargs (some d)).color = d.color) ∧
    (∀ v, kwargs.opacity = some v →
      (IconOptions.fromKwargs kwargs (some d)).opacity = v) ∧
    (kwargs.opacity = none →
      (IconOptions.fromKwargs kwargs (some d)).opacity = d.opacity) ∧
    (∀ v, kwargs.animation = some v →
      (IconOptions.fromKwargs kwargs (some d)).animation = some v) ∧
    (kwargs.animation = none →
      (IconOptions.fromKwargs kwargs (some d)).animation = d.animation) ∧
    (∀ v, kwargs.transform = some v →
      (IconOptions.fromKwargs kwargs (some d)).transform = some v) ∧
    (kwargs.transform = none →
      (IconOptions.fromKwargs kwargs (some d)).transform = d.transform) := by
  refine ⟨rfl, ?_, ?_, ?_, ?_, ?_, ?_, ?_, ?_, ?_, ?_, ?_, ?_⟩ <;>
    first
      | (intro v hv; simp [IconOptions.fromKwargs, hv])
      | (intro hv; simp [IconOptions.fromKwargs, hv])

/-- Witness for C5 at a concrete kwargs/defaults pair: a `some` glyph key is
taken from the kwargs, a `None` color falls back to the defaults record. -/
theorem from_kwargs_merges_witness :
    (IconOptions.fromKwargs
        { glyph_key := some "fa5s.star", scale_factor := none, color := none,
          opacity := none, animation := none, transform := none }
        (some { glyph_key := "", scale_factor := 2, color := some (ColorVal.strc "red"),
                opacity := 1, animation := none, transform := none })).glyph_key = "fa5s.star" ∧
    (IconOptions.fromKwargs
        { glyph_key := some "fa5s.star", scale_factor := none, color := none,
          opacity := none, animation := none, transform := none }
        (some { glyph_key := "", scale_factor := 2, color := some (ColorVal.strc "red"),
                opacity := 1, animation := none, transform := none })).color =
      some (ColorVal.strc "red") :=
  ⟨(from_kwargs_merges
      { glyph_key := some "fa5s.star", scale_factor := none, color := none,
        opacity := none, animation := none, transform := none }
      { glyph_key := "", scale_factor := 2, color := some (ColorVal.strc "red"),
        opacity := 1, animation := none, transform := none }).2.1 "fa5s.star" rfl,
   (from_kwargs_merges
      { glyph_key := some "fa5s.star", scale_factor := none, color := none,
        opacity := none, animation := none, transform := none }
      { glyph_key := "", scale_factor := 2, color := some (ColorVal.strc "red"),
        opacity := 1, animation := none, transform := none }).2.2.2.2.2.2.1 rfl⟩

/-- C10: in `_ensure_char` a single character with code point above 256 is
returned directly without consulting any charmap (so direct-unicode glyphs
work for fonts registered without a charmap), while any other name succeeds
only through a registered charmap entry — found directly or under its
identifier-normalized form — and a missing charmap is an error. -/
theorem ensure_char_direct_unicode (cls : QFontIconStore) (char family style : String) :
    (∀ c : Char, char.toList = [c] → 256 < c.toNat →
        QFontIconStore.ensure_char cls char family style = .ok char) ∧
    (∀ c : Char, char.toList = [c] → c.toNat ≤ 256 → isDirectUnicode char = false) ∧
    (char.toList.length ≠ 1 → isDirectUnicode char = false) ∧
    (isDirectUnicode char = false →
      ∀ r, QFontIconStore.ensure_char cls char family style = .ok r →
        ∃ cm, alookup (family, style) cls.charmaps = some cm ∧
          ((∃ v, alookup char cm = some v ∧ r = stripAfterDot v) ∨
           (alookup char cm = none ∧ ∃ ident v, ensure_identifier char = some ident ∧
              alookup ident cm = some v ∧ r = stripAfterDot v))) ∧
    (isDirectUnicode char = false → alookup (family, style) cls.charmaps = none →
      QFontIconStore.ensure_char cls char family style = .error (.noCharmap family style)) := by
  refine ⟨?_, ?_, ?_, ?_, ?_⟩
  · intro c hc h256
    have hd : char.data = [c] := hc
    have hdir : isDirectUnicode char = true := by
      simp [isDirectUnicode, hd, h256]
    simp [QFontIconStore.ensure_char, hdir]
  · intro c hc h256
    have hd : char.data = [c] := hc
    simp [isDirectUnicode, hd]
    omega
  · intro hlen
    unfold isDirectUnicode
    rcases hc : char.toList with _ | ⟨c, rest⟩
    · rfl
    · rcases rest with _ | _
      · rw [hc] at hlen
        simp at hlen
      · rfl
  · intro hdir r hok
    unfold QFontIconStore.ensure_char at hok
    rw [hdir] at hok
    simp only [Bool.false_eq_true, if_false] at hok
    split at hok
    · simp at hok
    · next cm hcm =>
      refine ⟨cm, hcm, ?_⟩
      split at hok
      · next v hdl =>
        simp only [Except.ok.injEq] at hok
        exact Or.inl ⟨v, hdl, hok.symm⟩
      · next hdl =>
        split at hok
        · simp at hok
        · next ident hid =>
          split at hok
          · next v hil =>
            simp only [Except.ok.injEq] at hok
            exact Or.inr ⟨hdl, ident, v, hid, hil, hok.symm⟩
          · simp at hok
  · intro hdir hcm
    unfold QFontIconStore.ensure_char
    rw [hdir, hcm]
    rfl

/-- Witness for C10: the sun character U+2600 bypasses cs0's charmap. -/
theorem ensure_char_direct_unicode_witness :
    QFontIconStore.ensure_char cs0 "☀" "F" "S" = .ok "☀" :=
  (ensure_char_direct_unicode cs0 "☀" "F" "S").1 '☀' rfl (by decide)

/-- C4 (amended): with word wrap disabled, `_elidedText` is the font-metrics
elision of the full text to (width - 2) under the current elide mode; with
word wrap enabled, provided at least one line fits (so the computed line
count `height // line-height - 1` is nonnegative), the first
`height // line-height - 1` wrapped lines are shown verbatim and the
remaining wrapped text is joined and elided into a single final line; and
`setText` displays exactly `_elidedText` of the new text. -/
theorem elided_text_spec (env : QtTextEnv) (l : QElidingLabel) (w : Option Int) (width : Int)
    (hwidth : width = (match w with
      | some v => if v = 0 then l.width else v
      | none => l.width) - 2) :
    (l.wordWrap = false →
      QElidingLabel.elidedText env l w = env.elidedText l.text l.elide_mode width) ∧
    (l.wordWrap = true → 0 ≤ Int.fdiv l.height env.fmHeight - 1 →
      QElidingLabel.elidedText env l w =
        String.join ((env.wrapText l.text l.width).take (Int.fdiv l.height env.fmHeight - 1).toNat)
          ++ env.elidedText
              (String.join
                ((env.wrapText l.text l.width).drop (Int.fdiv l.height env.fmHeight - 1).toNat))
              l.elide_mode width) ∧
    (∀ txt, (QElidingLabel.setText env l txt).superText =
      QElidingLabel.elidedText env { l with text := txt } none) := by
  subst hwidth
  refine ⟨?_, ?_, fun _ => rfl⟩
  · intro hww
    simp [QElidingLabel.elidedText, hww]
  · intro hww hnl
    simp only [QElidingLabel.elidedText, hww, Bool.not_true, Bool.false_eq_true, if_false,
      pySliceTo, pySliceFrom, if_pos hnl, join_append_one]

/-- C4 counterexample: with line height 10 and label height 5 the computed
line count is -1; Python's negative slicing then displays all wrapped lines
but the last verbatim ("aa") followed by the elided last line ("b" under an
elision that keeps the first character), i.e. "aab" — not the elision of the
whole remaining text ("a"), as the claim's reading of "the first
(height div line-height, minus one) lines" would give. -/
theorem elided_text_negative_nlines_counterexample :
    QElidingLabel.elidedText envC4 lblC4 none = "aab" ∧
    envC4.elidedText (String.join (envC4.wrapText lblC4.text lblC4.width)) lblC4.elide_mode
        (lblC4.width - 2) = "a" ∧
    ("aab" : String) ≠ "a" :=
  ⟨rfl, rfl, by decide⟩

/-- Witness for C4 at a concrete no-wrap label: the displayed text is the
environment's elision of the full text at width 50 - 2. -/
theorem elided_text_spec_witness :
    QElidingLabel.elidedText envC4 lblC4w none =
      envC4.elidedText lblC4w.text lblC4w.elide_mode 48 :=
  (elided_text_spec envC4 lblC4w none 48 (by decide)).1 rfl

/-- C7 (amended): a successful `addFont(filepath, prefix, charmap)` — prefix
not yet loaded, font file loads as (family, style) — returns that pair,
records prefix ↦ (family, style) in the loaded-keys registry and, when a
NON-EMPTY charmap is provided, records it under (family, style) in the
charmap registry (`if charmap:` treats an empty charmap like an absent one),
leaving every other entry of both registries unchanged. -/
theorem addFont_success_spec (cls : QFontIconStore) (pfx family style : String)
    (cm : Option Charmap) (hnew : alookup pfx cls.loadedKeys = none) :
    ∃ cls', QFontIconStore.addFont cls pfx (some (family, style)) cm =
        .ok (some (family, style), cls') ∧
      alookup pfx cls'.loadedKeys = some (family, style) ∧
      (∀ k, k ≠ pfx → alookup k cls'.loadedKeys = alookup k cls.loadedKeys) ∧
      (∀ m, cm = some m → m ≠ [] → alookup (family, style) cls'.charmaps = some m) ∧
      (∀ fs', fs' ≠ (family, style) → alookup fs' cls'.charmaps = alookup fs' cls.charmaps) ∧
      (cm = none ∨ cm = some [] → cls'.charmaps = cls.charmaps) := by
  refine ⟨{ loadedKeys := insertAssoc cls.loadedKeys pfx (family, style),
            charmaps := match cm with
              | some m => if m ≠ [] then insertAssoc cls.charmaps (family, style) m
                          else cls.charmaps
              | none => cls.charmaps }, ?_, ?_, ?_, ?_, ?_, ?_⟩
  · unfold QFontIconStore.addFont
    rw [hnew]
    rfl
  · exact alookup_insertAssoc_self _ _ _
  · intro k hk
    exact alookup_insertAssoc_ne _ _ _ _ hk
  · intro m hm hne
    subst hm
    simp only [ne_eq, hne, not_false_eq_true, if_true]
    exact alookup_insertAssoc_self _ _ _
  · intro fs' hfs
    rcases cm with _ | m
    · rfl
    · dsimp only
      by_cases hm : m = []
      · simp [hm]
      · simp only [ne_eq, hm, not_false_eq_true, if_true]
        exact alookup_insertAssoc_ne _ _ _ _ hfs
  · rintro (hcm | hcm) <;> subst hcm <;> rfl

/-- C7 counterexample: an explicitly provided but empty charmap is NOT
recorded — after `addFont` on an empty store with `charmap = {}` the charmap
registry is still empty, while the claim requires an entry under
("F", "S"). -/
theorem addFont_empty_charmap_counterexample :
    QFontIconStore.addFont { loadedKeys := [], charmaps := [] } "p" (some ("F", "S"))
        (some []) =
      .ok (some ("F", "S"), { loadedKeys := [("p", ("F", "S"))], charmaps := [] }) ∧
    alookup ("F", "S") ([] : List ((String × String) × Charmap)) ≠ some ([] : Charmap) :=
  ⟨rfl, by simp [alookup]⟩

/-- Witness for C7 at a concrete call: loading prefix "p" as ("F", "S") with
a one-entry charmap on the empty store. -/
theorem addFont_success_spec_witness :
    ∃ cls', QFontIconStore.addFont { loadedKeys := [], charmaps := [] } "p"
        (some ("F", "S")) (some [("star", "★")]) =
        .ok (some ("F", "S"), cls') ∧
      alookup "p" cls'.loadedKeys = some ("F", "S") ∧
      (∀ k, k ≠ "p" → alookup k cls'.loadedKeys =
        alookup k ({ loadedKeys := [], charmaps := [] } : QFontIconStore).loadedKeys) ∧
      (∀ m, (some [("star", "★")] : Option Charmap) = some m → m ≠ [] →
        alookup ("F", "S") cls'.charmaps = some m) ∧
      (∀ fs', fs' ≠ ("F", "S") → alookup fs' cls'.charmaps =
        alookup fs' ({ loadedKeys := [], charmaps := [] } : QFontIconStore).charmaps) ∧
      ((some [("star", "★")] : Option Charmap) = none ∨
        (some [("star", "★")] : Option Charmap) = some [] →
        cls'.charmaps = ({ loadedKeys := [], charmaps := [] } : QFontIconStore).charmaps) :=
  addFont_success_spec { loadedKeys := [], charmaps := [] } "p" "F" "S"
    (some [("star", "★")]) rfl

theorem font_charmaps_preserved (pl : Plugins) (fs : String × String)
    (cls : QFontIconStore) (fontPfx : String) (size : Option Int)
    (out : QFontModel × QFontIconStore) (hpl : noPluginFor pl fs)
    (h : QFontIconStore.font pl cls fontPfx size = .ok out) :
    alookup fs out.2.charmaps = alookup fs cls.charmaps := by
  simp only [QFontIconStore.font] at h
  split at h
  · simp at h
  · split at h
    · simp at h
    · simp only [Except.ok.injEq] at h
      rw [← h]
      exact key2family_charmaps_preserved pl fs cls _ _ hpl (by assumption)

/-- C6 (amended): a charmap registered under a (family, style) pair is never
mutated by glyph lookups and is replaced only when a later font load —
a direct `addFont` or a plugin auto-load — resolves to the SAME
(family, style) pair: `addFont` calls whose file resolves elsewhere, and
`key2glyph` / `icon` / `font` / `setTextIcon` calls when no plugin resolves
to that pair, leave the charmap entry untouched, until `clear` empties the
registry. -/
theorem charmaps_immutable_amended (fs : String × String) :
    (∀ cls pfx res cm out, QFontIconStore.addFont cls pfx res cm = .ok out →
        res ≠ some fs → alookup fs out.2.charmaps = alookup fs cls.charmaps) ∧
    (∀ pl cls gk out, noPluginFor pl fs →
        QFontIconStore.key2glyph pl cls gk = .ok out →
        alookup fs out.2.charmaps = alookup fs cls.charmaps) ∧
    (∀ pl cls gk sf c op an tr sts out, noPluginFor pl fs →
        QFontIconStore.icon pl cls gk sf c op an tr sts = .ok out →
        alookup fs out.2.charmaps = alookup fs cls.charmaps) ∧
    (∀ pl cls fp sz out, noPluginFor pl fs →
        QFontIconStore.font pl cls fp sz = .ok out →
        alookup fs out.2.charmaps = alookup fs cls.charmaps) ∧
    (∀ pl cls w gk sz out, noPluginFor pl fs →
        QFontIconStore.setTextIcon pl cls w gk sz = .ok out →
        alookup fs out.2.charmaps = alookup fs cls.charmaps) ∧
    (∀ cls, alookup fs (QFontIconStore.clear cls).charmaps = none) := by
  refine ⟨?_, ?_, ?_, ?_, ?_, fun _ => rfl⟩
  · intro cls pfx res cm out h hne
    exact addFont_charmaps cls pfx res cm out fs h hne
  · intro pl cls gk out hpl h
    exact key2glyph_charmaps_preserved pl fs cls gk out hpl h
  · intro pl cls gk sf c op an tr sts out hpl h
    simp only [QFontIconStore.icon] at h
    split at h
    · simp at h
    · split at h
      · simp at h
      · simp only [Except.ok.injEq] at h
        rw [← h]
        exact key2glyph_charmaps_preserved pl fs cls gk _ hpl (by assumption)
  · intro pl cls fp sz out hpl h
    exact font_charmaps_preserved pl fs cls fp sz out hpl h
  · intro pl cls w gk sz out hpl h
    simp only [QFontIconStore.setTextIcon] at h
    split at h
    · simp at h
    · next glyph fam sty cls1 hkg =>
      split at h
      · simp at h
      · next f cls2 hfont =>
        simp only [Except.ok.injEq] at h
        rw [← h]
        have h1 := key2glyph_charmaps_preserved pl fs cls gk _ hpl hkg
        have h2 := font_charmaps_preserved pl fs cls1 gk _ _ hpl hfont
        exact h2.trans h1

/-- C6 counterexample: loading a second prefix "b" whose font file resolves
to the SAME (family, style) pair replaces the charmap previously registered
for prefix "a" — the registry now maps ("F", "S") to the new charmap, so
charmap entries are not immutable under later `addFont` calls with a
different prefix. -/
theorem charmap_replaced_counterexample :
    QFontIconStore.addFont csA "b" (some ("F", "S")) (some [("x", "z")]) =
      .ok (some ("F", "S"),
        { loadedKeys := [("a", ("F", "S")), ("b", ("F", "S"))],
          charmaps := [(("F", "S"), [("x", "z")])] }) ∧
    alookup ("F", "S") csA.charmaps = some [("x", "y")] ∧
    (some [("x", "z")] : Option Charmap) ≠ some [("x", "y")] :=
  ⟨rfl, rfl, by decide⟩

/-- Witness for C6: an `addFont` resolving to a different (family, style)
leaves the charmap registered for ("F", "S") unchanged. -/
theorem charmaps_immutable_amended_witness :
    alookup ("F", "S")
        ({ loadedKeys := [("a", ("F", "S")), ("c", ("G", "T"))],
           charmaps := [(("F", "S"), [("x", "y")])] } : QFontIconStore).charmaps =
      alookup ("F", "S") csA.charmaps :=
  (charmaps_immutable_amended ("F", "S")).1 csA "c" (some ("G", "T")) none
    (some ("G", "T"),
      { loadedKeys := [("a", ("F", "S")), ("c", ("G", "T"))],
        charmaps := [(("F", "S"), [("x", "y")])] })
    rfl (by decide)

/-- C1: `icon` resolves the glyph key before any icon is constructed: when
the prefix before the first '.' is neither in the loaded-keys registry nor
provided by a plugin, `icon` raises the `ValueError` naming that key and
returns no icon; and an icon is returned only when the font prefix resolves
via `_key2family`. -/
theorem icon_requires_resolvable_key (pl : Plugins) (cls : QFontIconStore) (gk : String)
    (sf : Option Rat) (c : Option ColorVal) (op : Option Rat) (an : Option Animation)
    (tr : Option Transform) (sts : List (String × AddStateKwargs)) :
    (∀ k rest, pysplit1 gk = (k, some rest) → alookup k cls.loadedKeys = none →
        pl k = none →
        QFontIconStore.icon pl cls gk sf c op an tr sts = .error (.unrecognizedKey k) ∧
        (Err.unrecognizedKey k).isValueError = true) ∧
    (∀ out, QFontIconStore.icon pl cls gk sf c op an tr sts = .ok out →
        ∃ k rest r, pysplit1 gk = (k, some rest) ∧
          QFontIconStore.key2family pl cls k = .ok r) := by
  constructor
  · intro k rest hsp hlk hpl
    have hk1 : k = (pysplit1 gk).1 := by rw [hsp]
    have hfst : (pysplit1 k).1 = k := by
      rw [hk1, pysplit1_idem gk]
    have hkf : QFontIconStore.key2family pl cls k = .error (.unrecognizedKey k) := by
      simp only [QFontIconStore.key2family, hfst, hlk, hpl]
    have hkg : QFontIconStore.key2glyph pl cls gk = .error (.unrecognizedKey k) := by
      simp only [QFontIconStore.key2glyph, hsp, hkf]
    refine ⟨?_, rfl⟩
    simp only [QFontIconStore.icon, hkg]
  · intro out h
    simp only [QFontIconStore.icon] at h
    split at h
    · simp at h
    · rename_i x cls' hkg
      simp only [QFontIconStore.key2glyph] at hkg
      split at hkg
      · simp at hkg
      · rename_i fk char hsp2
        split at hkg
        · simp at hkg
        · rename_i fam sty cls2 hkf
          exact ⟨fk, char, ((fam, sty), cls2), hsp2, hkf⟩

/-- Witness for C1: on the empty store with no plugins, requesting
"unknown.x" raises the unrecognized-key `ValueError`. -/
theorem icon_requires_resolvable_key_witness :
    QFontIconStore.icon pl0 { loadedKeys := [], charmaps := [] } "unknown.x"
        none none none none none [] = .error (.unrecognizedKey "unknown") :=
  ((icon_requires_resolvable_key pl0 { loadedKeys := [], charmaps := [] } "unknown.x"
      none none none none none []).1 "unknown" "x" rfl rfl rfl).1

/-- C2: each key of the `states` mapping is interpreted by the fixed
`_states` table on the set of its lowercase underscore-separated parts: a
key whose part set is absent from the table makes `icon` raise the invalid
state key `ValueError`, and a key mapped to `(state, mode)` stores the
merged options at exactly that (state, mode) entry, leaving every other
entry unchanged. -/
theorem icon_state_key_table (kw : String) (o : AddStateKwargs) :
    (∀ pl cls gk sf c op an tr pre post r,
        QFontIconStore.key2glyph pl cls gk = .ok r →
        (∀ p ∈ pre, (statesLookup (stateParts p.1)).isSome) →
        statesLookup (stateParts kw) = none →
        QFontIconStore.icon pl cls gk sf c op an tr (pre ++ (kw, o) :: post) =
          .error (.invalidStateKey kw) ∧
        (Err.invalidStateKey kw).isValueError = true) ∧
    (∀ state mode, statesLookup (stateParts kw) = some (state, mode) →
        (∀ icn rest, applyStates icn ((kw, o) :: rest) =
            applyStates (QFontIcon.addState icn state mode o) rest) ∧
        (∀ icn, (QFontIcon.addState icn state mode o).opts =
            insertAssoc icn.opts (state, mode)
              (IconOptions.fromKwargs o.toKwargs (some icn.defaultOpts))) ∧
        (∀ icn p, p ≠ (state, mode) →
            alookup p (QFontIcon.addState icn state mode o).opts = alookup p icn.opts)) := by
  constructor
  · intro pl cls gk sf c op an tr pre post r hkg hpre hkw
    refine ⟨?_, rfl⟩
    obtain ⟨g, cls'⟩ := r
    simp only [QFontIconStore.icon, hkg]
    rw [applyStates_error_of_invalid kw o hkw pre _ post hpre]
  · intro state mode hsm
    refine ⟨?_, fun icn => rfl, ?_⟩
    · intro icn rest
      simp [applyStates, hsm]
    · intro icn p hp
      exact alookup_insertAssoc_ne _ _ _ _ hp

/-- Witness for C2: on cs0 a valid glyph key with the invalid state key
"bogus" raises the invalid-state-key `ValueError`. -/
theorem icon_state_key_table_witness :
    QFontIconStore.icon pl0 cs0 "k.x" none none none none none [("bogus", o0)] =
      .error (.invalidStateKey "bogus") :=
  ((icon_state_key_table "bogus" o0).1 pl0 cs0 "k.x" none none none none none [] []
      (("y", "F", "S"), cs0) rfl (by simp) rfl).1

/-- C3 (amended): for a glyph key containing '.', whose remainder is not a
single character above code point 256 (those bypass the charmap, see the
counterexample) and whose resolved font has a registered charmap,
`key2glyph` splits at the first '.', resolves the prefix, and resolves the
remainder through the charmap — direct lookup first, then the
identifier-normalized name, each value stripped of an embedded `key.` —
returning (char, family, style); when both lookups miss it raises the
`ValueError` stating the font has no glyph with that key. -/
theorem key2glyph_charmap_resolution (pl : Plugins) (cls : QFontIconStore)
    (gk k char family style : String) (cls2 : QFontIconStore) (cm : Charmap)
    (hsplit : pysplit1 gk = (k, some char))
    (hfam : QFontIconStore.key2family pl cls k = .ok ((family, style), cls2))
    (hdir : isDirectUnicode char = false)
    (hcm : alookup (family, style) cls2.charmaps = some cm) :
    (∀ v, alookup char cm = some v →
        QFontIconStore.key2glyph pl cls gk = .ok ((stripAfterDot v, family, style), cls2)) ∧
    (alookup char cm = none → ∀ ident, ensure_identifier char = some ident →
        (∀ v, alookup ident cm = some v →
            QFontIconStore.key2glyph pl cls gk =
              .ok ((stripAfterDot v, family, style), cls2)) ∧
        (alookup ident cm = none →
            QFontIconStore.key2glyph pl cls gk = .error (.noGlyph family style char) ∧
            (Err.noGlyph family style char).isValueError = true)) := by
  have hkey : QFontIconStore.key2glyph pl cls gk =
      (match QFontIconStore.ensure_char cls2 char family style with
        | .error e => .error e
        | .ok ch => .ok ((ch, family, style), cls2)) := by
    simp only [QFontIconStore.key2glyph, hsplit, hfam]
  constructor
  · intro v hv
    have he : QFontIconStore.ensure_char cls2 char family style = .ok (stripAfterDot v) := by
      simp only [QFontIconStore.ensure_char, hdir, Bool.false_eq_true, if_false, hcm, hv]
    rw [hkey, he]
  · intro hnone ident hid
    constructor
    · intro v hv
      have he : QFontIconStore.ensure_char cls2 char family style = .ok (stripAfterDot v) := by
        simp only [QFontIconStore.ensure_char, hdir, Bool.false_eq_true, if_false, hcm,
          hnone, hid, hv]
      rw [hkey, he]
    · intro hnone2
      have he : QFontIconStore.ensure_char cls2 char family style =
          .error (.noGlyph family style char) := by
        simp only [QFontIconStore.ensure_char, hdir, Bool.false_eq_true, if_false, hcm,
          hnone, hid, hnone2]
      exact ⟨by rw [hkey, he], rfl⟩

/-- C3 counterexample: for the glyph key "k.☀" — the remainder is the single
character U+2600 — neither charmap lookup can succeed (the charmap has no
entry and the name does not even normalize to an identifier), yet
`key2glyph` returns the character instead of raising the `ValueError` the
claim requires. -/
theorem key2glyph_direct_unicode_counterexample :
    QFontIconStore.key2glyph pl0 cs0 "k.☀" = .ok (("☀", "F", "S"), cs0) ∧
    alookup "☀" [("abc", "z"), ("x", "k.y")] = (none : Option String) ∧
    ensure_identifier "☀" = none :=
  ⟨rfl, rfl, rfl⟩

/-- Witness for C3: resolving "k.x" through cs0's charmap strips the
embedded "k." from the stored value "k.y". -/
theorem key2glyph_charmap_resolution_witness :
    QFontIconStore.key2glyph pl0 cs0 "k.x" = .ok ((stripAfterDot "k.y", "F", "S"), cs0) :=
  (key2glyph_charmap_resolution pl0 cs0 "k.x" "k" "x" "F" "S" cs0
      [("abc", "z"), ("x", "k.y")] rfl rfl rfl rfl).1 "k.y" rfl
